import Mathlib

/-!
Verification development for the fast_bench repository.

Each section embeds one Python module (shallowly: machine floats become
exact rationals, OS and library calls become explicit parameters) and
proves the documented properties about it.
-/

namespace FastBench

/-!
Embedding of src/fast_bench/ui_attach.py: WindowRect and the
absolute/relative coordinate conversions to_rel and to_abs.
-/

structure WindowRect where
  left : ℤ
  top : ℤ
  right : ℤ
  bottom : ℤ

def WindowRect.width (r : WindowRect) : ℤ := r.right - r.left

def WindowRect.height (r : WindowRect) : ℤ := r.bottom - r.top

/-- Truncation toward zero, the behaviour of the Python builtin int() on a
real number (here modelled exactly on rationals). -/
def pyInt (q : ℚ) : ℤ := if q < 0 then ⌈q⌉ else ⌊q⌋

/-- Embedding of to_rel: absolute screen point to window-relative
coordinates, with a guard returning 0.0 when the width (resp. height) is
not positive. -/
def to_rel (x y : ℤ) (rect : WindowRect) : ℚ × ℚ :=
  ((if 0 < rect.width then ((x : ℚ) - (rect.left : ℚ)) / (rect.width : ℚ) else 0),
   (if 0 < rect.height then ((y : ℚ) - (rect.top : ℚ)) / (rect.height : ℚ) else 0))

/-- Embedding of to_abs: window-relative coordinates back to absolute
screen pixels, truncating with the Python int() builtin. -/
def to_abs (rel_x rel_y : ℚ) (rect : WindowRect) : ℤ × ℤ :=
  (pyInt ((rect.left : ℚ) + rel_x * (rect.width : ℚ)),
   pyInt ((rect.top : ℚ) + rel_y * (rect.height : ℚ)))

/-!
Embedding of the throughput computation shared by the probes in
src/fast_bench/baseline_probe.py, lines 209-210 and 310-311:
throughput_mbs = (bytes_read / (1024 * 1024)) / elapsed.
-/

def throughput_mbs (bytesRead : ℕ) (elapsed : ℚ) : ℚ :=
  ((bytesRead : ℚ) / (1024 * 1024)) / elapsed

/-!
Embedding of the percentile computation shared by the probes in
src/fast_bench/baseline_probe.py (lines 229-231 and 247-248, likewise
319-321 and 337-338): the collected per-chunk elapsed times are sorted
ascending, p95_idx = int(len * 0.95), p99_idx = int(len * 0.99), and the
reported value is the sorted element at that index when the index is in
range, else 0.  Python sorts floats ascending; on exact rationals any
comparison sort yields the same value list, modelled with insertion sort.
-/

def sortChunkTimes (l : List ℚ) : List ℚ := List.insertionSort (· ≤ ·) l

def p95_idx (n : ℕ) : ℕ := 95 * n / 100

def p99_idx (n : ℕ) : ℕ := 99 * n / 100

def chunk_time_p95 (l : List ℚ) : ℚ :=
  let s := sortChunkTimes l
  if h : p95_idx l.length < s.length then s.get ⟨p95_idx l.length, h⟩ else 0

def chunk_time_p99 (l : List ℚ) : ℚ :=
  let s := sortChunkTimes l
  if h : p99_idx l.length < s.length then s.get ⟨p99_idx l.length, h⟩ else 0

/-!
Embedding of the NAS throughput read loop,
src/fast_bench/baseline_probe.py lines 195-207.  The file is modelled by
its size and the current offset; a read at offset pos returns
min(chunkSize, fileSize - pos) bytes.  One loop iteration reads a chunk:
an empty read seeks back to offset 0 and continues, a non-empty read
accumulates bytes_read and appends the chunk elapsed time.  The list of
per-iteration observed elapsed times doubles as the iteration budget
granted by the wall-clock deadline.
-/

structure NasState where
  pos : ℕ
  bytesRead : ℕ
  chunkTimes : List ℚ

def nasRead (fileSize chunkSize pos : ℕ) : ℕ := min chunkSize (fileSize - pos)

def nasStep (fileSize chunkSize : ℕ) (elapsed : ℚ) (s : NasState) : NasState :=
  let n := nasRead fileSize chunkSize s.pos
  if n = 0 then { s with pos := 0 }
  else { pos := s.pos + n, bytesRead := s.bytesRead + n,
         chunkTimes := s.chunkTimes ++ [elapsed] }

def nasLoop (fileSize chunkSize : ℕ) : List ℚ → NasState → NasState
  | [], s => s
  | e :: rest, s => nasLoop fileSize chunkSize rest (nasStep fileSize chunkSize e s)

/-!
Embedding of test_azure_throughput, src/fast_bench/baseline_probe.py
lines 262-350.  The initial psutil.net_io_counters() snapshot at line
287 is taken before the try block that starts at line 289, so an OSError
raised by that call propagates to the caller; its outcome is an explicit
parameter, and a propagated exception is the error side of the result.
Inside the try block, each loop iteration issues one ranged GET,
modelled by its observable outcome: a response (status code, content
length, elapsed seconds) or a raised exception carrying its message.
The event list length is the iteration budget granted by the wall-clock
deadline.  A response with status 200 or 206 accumulates bytes and a
chunk-time sample, any other status only logs a warning; an exception
inside the try block aborts the loop and is caught, producing the
failure record with success false and the exception message.  The
network-bandwidth statistics derived after the loop from the snapshot
(lines 313-317) are not among the modelled record fields.
-/

structure NetCounters where
  bytes_recv : ℕ
  bytes_sent : ℕ

inductive AzureEvent where
  | resp (status : ℕ) (contentLen : ℕ) (elapsed : ℚ)
  | exn (msg : String)
deriving DecidableEq

def AzureEvent.isExn : AzureEvent → Bool
  | .exn _ => true
  | .resp _ _ _ => false

structure AzureState where
  urlIdx : ℕ
  bytesRead : ℕ
  chunkTimes : List ℚ

def azureLoop : List AzureEvent → AzureState → Except String AzureState
  | [], s => .ok s
  | .exn m :: _, _ => .error m
  | .resp status len e :: rest, s =>
    let s1 : AzureState := { s with urlIdx := s.urlIdx + 1 }
    if status = 200 ∨ status = 206 then
      azureLoop rest { s1 with bytesRead := s1.bytesRead + len,
                               chunkTimes := s1.chunkTimes ++ [e] }
    else
      azureLoop rest s1

structure AzureStats where
  duration_sec : ℚ
  bytesRead : ℕ
  throughput : ℚ
  chunkCount : ℕ
  chunk_time_p95_ms : ℚ
  chunk_time_p99_ms : ℚ
deriving DecidableEq

/-- Result of one probe operation: the stats record, or the failure
record written as a dict with success false and the error message. -/
inductive ProbeResult where
  | stats (s : AzureStats)
  | failure (error : String)
deriving DecidableEq

def test_azure_throughput (netIoStart : Except String NetCounters)
    (events : List AzureEvent) (elapsed : ℚ) : Except String ProbeResult :=
  match netIoStart with
  | .error m => .error m
  | .ok _ =>
    match azureLoop events ⟨0, 0, []⟩ with
    | .error m => .ok (.failure m)
    | .ok s =>
      .ok (.stats { duration_sec := elapsed
                    bytesRead := s.bytesRead
                    throughput := throughput_mbs s.bytesRead elapsed
                    chunkCount := s.chunkTimes.length
                    chunk_time_p95_ms := chunk_time_p95 s.chunkTimes * 1000
                    chunk_time_p99_ms := chunk_time_p99 s.chunkTimes * 1000 })

/-!
Embedding of the NIC link-speed detection in collect_machine_specs,
src/fast_bench/baseline_probe.py lines 118-140, and of the
link-utilization computation used by the probes (lines 233-236 and
323-326).  A network interface is modelled by its up flag, whether its
lowercased name contains the substring loopback, and its advertised
speed in Mbps as reported by psutil.
-/

structure Nic where
  isUp : Bool
  isLoopbackName : Bool
  speed : ℕ
deriving DecidableEq

def nicStep (m : ℕ) (n : Nic) : ℕ :=
  if n.isUp then
    if n.isLoopbackName = false ∧ m < n.speed then n.speed else m
  else m

def detectMaxSpeed (nics : List Nic) : ℕ := nics.foldl nicStep 0

/-- Link speed as stored on the probe object: initialised to None and set
only when a positive maximum was found. -/
def detectLinkSpeed (nics : List Nic) : Option ℕ :=
  let m := detectMaxSpeed nics
  if 0 < m then some m else none

def link_utilization_pct (linkSpeed : Option ℕ) (netBandwidthMbps : ℚ) : ℚ :=
  match linkSpeed with
  | some s => if 0 < s then netBandwidthMbps / (s : ℚ) * 100 else 0
  | none => 0

/-!
Embedding of src/fast_bench/config_schema.py.  A raw configuration
mapping (the YAML document after parsing) is modelled with an Option for
every declared field and for every nested section.  The pydantic
validation performed by Config(config_dict) collects, for each field
declared required (Field with no default and no default factory), an
error naming its location; a missing section is itself reported by its
own name, as pydantic does.  The value-level validators (filesystem
existence checks, URL shape, numeric bounds) act on fields that are
present and are outside the scope of the missing-field model.
load_config here receives the parsed mapping and returns either the
validated Config or the validation error listing the missing field
names; in the program the error is raised, main does not catch it, and
the interpreter exits non-zero.
-/

structure RawPetrel where
  exe_path : Option String
  project_arg_supported : Option Bool

structure RawPaths where
  project_shared_zgy_local : Option String
  project_fast_vzgy_local : Option String

structure RawAzureBlob where
  account : Option String
  container : Option String
  example_vds_prefix : Option String
  sas_download_urls : Option (List String)
  sas_upload_urls : Option (List String)

structure RawDataSources where
  shared_zgy_hint : Option String
  fast_vzgy_hint : Option String
  azure_blob : Option RawAzureBlob

structure RawHotkeys where
  scrub_next_inline : Option String
  attribute_compute : Option String
  horizon_autotrack : Option String
  export_slice : Option String

structure RawFastLogs where
  logs : Option (List String)
  cache_dir : Option String

structure RawDefaults where
  scrub_count : Option ℕ
  scrub_delay_sec : Option ℚ
  horizon_run_seconds : Option ℕ

structure RawBenchmark where
  nas_test_dir : Option String
  nas_ping_host : Option String
  azure_ping_hosts : Option (List String)
  parallel_streams : Option ℕ
  http_chunk_bytes : Option ℕ

structure RawConfig where
  petrel : Option RawPetrel
  paths : Option RawPaths
  data_sources : Option RawDataSources
  hotkeys : Option RawHotkeys
  fast : Option RawFastLogs
  defaults : Option RawDefaults
  out_dir : Option String
  benchmark : Option RawBenchmark

structure PetrelConfig where
  exe_path : String
  project_arg_supported : Bool

structure PathsConfig where
  project_shared_zgy_local : String
  project_fast_vzgy_local : String

structure AzureBlobConfig where
  account : String
  container : String
  example_vds_prefix : Option String
  sas_download_urls : List String
  sas_upload_urls : List String

structure DataSourcesConfig where
  shared_zgy_hint : String
  fast_vzgy_hint : String
  azure_blob : AzureBlobConfig

structure HotkeysConfig where
  scrub_next_inline : String
  attribute_compute : String
  horizon_autotrack : String
  export_slice : String

structure FastLogsConfig where
  logs : List String
  cache_dir : String

structure DefaultsConfig where
  scrub_count : ℕ
  scrub_delay_sec : ℚ
  horizon_run_seconds : ℕ

structure BenchmarkConfig where
  nas_test_dir : String
  nas_ping_host : String
  azure_ping_hosts : List String
  parallel_streams : ℕ
  http_chunk_bytes : ℕ

structure Config where
  petrel : PetrelConfig
  paths : PathsConfig
  data_sources : DataSourcesConfig
  hotkeys : HotkeysConfig
  fast : FastLogsConfig
  defaults : DefaultsConfig
  out_dir : String
  benchmark : BenchmarkConfig

def missingPetrel (r : RawPetrel) : List String :=
  if r.exe_path.isNone then ["petrel.exe_path"] else []

def missingPaths (r : RawPaths) : List String :=
  (if r.project_shared_zgy_local.isNone then ["paths.project_shared_zgy_local"] else []) ++
  (if r.project_fast_vzgy_local.isNone then ["paths.project_fast_vzgy_local"] else [])

def missingAzureBlob (r : RawAzureBlob) : List String :=
  (if r.account.isNone then ["data_sources.azure_blob.account"] else []) ++
  (if r.container.isNone then ["data_sources.azure_blob.container"] else [])

def missingDataSources (r : RawDataSources) : List String :=
  (if r.shared_zgy_hint.isNone then ["data_sources.shared_zgy_hint"] else []) ++
  (if r.fast_vzgy_hint.isNone then ["data_sources.fast_vzgy_hint"] else []) ++
  (match r.azure_blob with
   | none => ["data_sources.azure_blob"]
   | some a => missingAzureBlob a)

def missingFastLogs (r : RawFastLogs) : List String :=
  if r.cache_dir.isNone then ["fast.cache_dir"] else []

def missingBenchmark (r : RawBenchmark) : List String :=
  (if r.nas_test_dir.isNone then ["benchmark.nas_test_dir"] else []) ++
  (if r.nas_ping_host.isNone then ["benchmark.nas_ping_host"] else [])

/-- Locations of all required fields absent from the raw mapping, in
declaration order, as collected by pydantic validation of Config. -/
def missingConfig (r : RawConfig) : List String :=
  (match r.petrel with | none => ["petrel"] | some p => missingPetrel p) ++
  (match r.paths with | none => ["paths"] | some p => missingPaths p) ++
  (match r.data_sources with | none => ["data_sources"] | some d => missingDataSources d) ++
  (match r.fast with | none => ["fast"] | some f => missingFastLogs f) ++
  (if r.out_dir.isNone then ["out_dir"] else []) ++
  (match r.benchmark with | none => ["benchmark"] | some b => missingBenchmark b)

def buildConfig (r : RawConfig) : Config :=
  { petrel :=
      { exe_path := (r.petrel.bind RawPetrel.exe_path).getD ""
        project_arg_supported := (r.petrel.bind RawPetrel.project_arg_supported).getD true }
    paths :=
      { project_shared_zgy_local := (r.paths.bind RawPaths.project_shared_zgy_local).getD ""
        project_fast_vzgy_local := (r.paths.bind RawPaths.project_fast_vzgy_local).getD "" }
    data_sources :=
      { shared_zgy_hint := (r.data_sources.bind RawDataSources.shared_zgy_hint).getD ""
        fast_vzgy_hint := (r.data_sources.bind RawDataSources.fast_vzgy_hint).getD ""
        azure_blob :=
          { account := ((r.data_sources.bind RawDataSources.azure_blob).bind RawAzureBlob.account).getD ""
            container := ((r.data_sources.bind RawDataSources.azure_blob).bind RawAzureBlob.container).getD ""
            example_vds_prefix := (r.data_sources.bind RawDataSources.azure_blob).bind RawAzureBlob.example_vds_prefix
            sas_download_urls := ((r.data_sources.bind RawDataSources.azure_blob).bind RawAzureBlob.sas_download_urls).getD []
            sas_upload_urls := ((r.data_sources.bind RawDataSources.azure_blob).bind RawAzureBlob.sas_upload_urls).getD [] } }
    hotkeys :=
      { scrub_next_inline := (r.hotkeys.bind RawHotkeys.scrub_next_inline).getD "PGDN"
        attribute_compute := (r.hotkeys.bind RawHotkeys.attribute_compute).getD "%1"
        horizon_autotrack := (r.hotkeys.bind RawHotkeys.horizon_autotrack).getD "%2"
        export_slice := (r.hotkeys.bind RawHotkeys.export_slice).getD "%3" }
    fast :=
      { logs := (r.fast.bind RawFastLogs.logs).getD []
        cache_dir := (r.fast.bind RawFastLogs.cache_dir).getD "" }
    defaults :=
      { scrub_count := (r.defaults.bind RawDefaults.scrub_count).getD 100
        scrub_delay_sec := (r.defaults.bind RawDefaults.scrub_delay_sec).getD (4 / 100)
        horizon_run_seconds := (r.defaults.bind RawDefaults.horizon_run_seconds).getD 45 }
    out_dir := r.out_dir.getD ""
    benchmark :=
      { nas_test_dir := (r.benchmark.bind RawBenchmark.nas_test_dir).getD ""
        nas_ping_host := (r.benchmark.bind RawBenchmark.nas_ping_host).getD ""
        azure_ping_hosts := (r.benchmark.bind RawBenchmark.azure_ping_hosts).getD []
        parallel_streams := (r.benchmark.bind RawBenchmark.parallel_streams).getD 4
        http_chunk_bytes := (r.benchmark.bind RawBenchmark.http_chunk_bytes).getD 8388608 } }

def load_config (r : RawConfig) : Except (List String) Config :=
  if missingConfig r = [] then Except.ok (buildConfig r)
  else Except.error (missingConfig r)

/-!
Embedding of src/fast_bench/metrics_agent.py.  collect_sample builds one
row as an ordered association list of column name and value; every OS or
library call is modelled by an explicit input recording its outcome (a
success flag for each try/except block plus the values read).  The
threading of the prev_io / prev_net / prev_time attributes between
samples belongs to the caller and is not needed for the row properties
below, so collect_sample here returns the row.
-/

inductive MVal where
  | str (s : String)
  | rat (q : ℚ)
  | int (n : ℕ)
deriving DecidableEq

structure IoCounters where
  read_bytes : ℕ
  write_bytes : ℕ
  read_count : ℕ
  write_count : ℕ

structure SampleEnv where
  ts : String
  pid : ℕ
  now : ℚ
  prevTime : Option ℚ
  isWin : Bool
  cpuOk : Bool
  cpuPct : ℚ
  rssBytes : ℕ
  vmsBytes : ℕ
  ioOk : Bool
  io_counters : IoCounters
  prevIo : Option IoCounters
  diskOk : Bool
  diskSome : Bool
  netOk : Bool
  netSome : Bool
  net : NetCounters
  prevNet : Option NetCounters
  gpuInit : Bool
  gpuOk : Bool
  gpuUtil : ℕ
  gpuMemUsed : ℕ
  gpuMemTotal : ℕ
  filesOk : Bool
  openFiles : List String

def cpuBlock (e : SampleEnv) : List (String × MVal) :=
  if e.cpuOk then
    [("cpu_pct", .rat e.cpuPct),
     ("rss_mb", .rat ((e.rssBytes : ℚ) / (1024 * 1024))),
     ("vms_mb", .rat ((e.vmsBytes : ℚ) / (1024 * 1024)))]
  else
    [("cpu_pct", .rat 0), ("rss_mb", .rat 0), ("vms_mb", .rat 0)]

def ioZeros : List (String × MVal) :=
  [("read_bytes_s", .rat 0), ("write_bytes_s", .rat 0),
   ("read_cnt_s", .rat 0), ("write_cnt_s", .rat 0)]

def ioBlock (e : SampleEnv) : List (String × MVal) :=
  if e.ioOk then
    if e.isWin then
      match e.prevIo, e.prevTime with
      | some p, some pt =>
        if 0 < e.now - pt then
          [("read_bytes_s", .rat (((e.io_counters.read_bytes : ℚ) - (p.read_bytes : ℚ)) / (e.now - pt))),
           ("write_bytes_s", .rat (((e.io_counters.write_bytes : ℚ) - (p.write_bytes : ℚ)) / (e.now - pt))),
           ("read_cnt_s", .rat (((e.io_counters.read_count : ℚ) - (p.read_count : ℚ)) / (e.now - pt))),
           ("write_cnt_s", .rat (((e.io_counters.write_count : ℚ) - (p.write_count : ℚ)) / (e.now - pt)))]
        else ioZeros
      | _, _ => ioZeros
    else ioZeros
  else ioZeros

def diskZeros : List (String × MVal) :=
  [("sys_disk_read_mb_s", .rat 0), ("sys_disk_write_mb_s", .rat 0)]

def diskBlock (e : SampleEnv) : List (String × MVal) :=
  if e.diskOk then
    if e.diskSome then diskZeros else diskZeros
  else diskZeros

def netZeros : List (String × MVal) :=
  [("sys_net_recv_mb_s", .rat 0), ("sys_net_sent_mb_s", .rat 0)]

def netBlock (e : SampleEnv) : List (String × MVal) :=
  if e.netOk then
    match e.netSome, e.prevNet, e.prevTime with
    | true, some p, some pt =>
      if 0 < e.now - pt then
        [("sys_net_recv_mb_s",
          .rat ((((e.net.bytes_recv : ℚ) - (p.bytes_recv : ℚ)) / (e.now - pt)) / (1024 * 1024))),
         ("sys_net_sent_mb_s",
          .rat ((((e.net.bytes_sent : ℚ) - (p.bytes_sent : ℚ)) / (e.now - pt)) / (1024 * 1024)))]
      else netZeros
    | _, _, _ => netZeros
  else netZeros

def gpuZeros : List (String × MVal) :=
  [("gpu_util_pct", .rat 0), ("gpu_mem_used_mb", .rat 0), ("gpu_mem_total_mb", .rat 0)]

def gpuBlock (e : SampleEnv) : List (String × MVal) :=
  if e.gpuInit then
    if e.gpuOk then
      [("gpu_util_pct", .int e.gpuUtil),
       ("gpu_mem_used_mb", .rat ((e.gpuMemUsed : ℚ) / (1024 * 1024))),
       ("gpu_mem_total_mb", .rat ((e.gpuMemTotal : ℚ) / (1024 * 1024)))]
    else gpuZeros
  else gpuZeros

def openZgyPathsField (e : SampleEnv) : String :=
  if e.filesOk then
    let z := e.openFiles.filter (fun p => p.toLower.endsWith ".zgy")
    if z.isEmpty then "" else String.intercalate ";" z
  else ""

/-- CSV header as written by MetricsAgent.run, lines 215-223. -/
def fieldnames : List String :=
  ["ts", "pid", "cpu_pct", "rss_mb", "vms_mb",
   "read_bytes_s", "write_bytes_s", "read_cnt_s", "write_cnt_s",
   "sys_disk_read_mb_s", "sys_disk_write_mb_s",
   "sys_net_recv_mb_s", "sys_net_sent_mb_s",
   "gpu_util_pct", "gpu_mem_used_mb", "gpu_mem_total_mb",
   "fast_req_latency_ms", "fast_req_bytes", "fast_req_cache_hit",
   "open_zgy_paths"]

def collectSample (e : SampleEnv) : List (String × MVal) :=
  [("ts", .str e.ts), ("pid", .int e.pid)] ++
  cpuBlock e ++ ioBlock e ++ diskBlock e ++ netBlock e ++ gpuBlock e ++
  [("fast_req_latency_ms", .rat 0), ("fast_req_bytes", .rat 0),
   ("fast_req_cache_hit", .int 0),
   ("open_zgy_paths", .str (openZgyPathsField e))]

/-!
Embedding of the sampling loop of MetricsAgent.run, lines 225-261.  One
loop iteration is modelled by its outcome: a successfully collected and
written sample that took the given number of seconds, death of the
monitored process (psutil.NoSuchProcess, which breaks the loop), or some
other collection error (logged, no row written, loop continues).  The
deadline check mirrors Python truthiness: a duration of 0 never breaks.
After a sample the loop sleeps max(0, 1.0 - sample_elapsed).  The state
is the wall-clock time since start and the rows written so far; the
event list is an upper bound on the iterations considered.
-/

inductive SampleEvent where
  | ok (elapsed : ℚ)
  | dead
  | err (elapsed : ℚ)
deriving DecidableEq

def metricsRun (duration : ℚ) : List SampleEvent → ℚ → ℕ → ℕ
  | [], _, count => count
  | ev :: rest, t, count =>
    if duration ≠ 0 ∧ duration ≤ t then count
       else
      match ev with
      | .dead => count
      | .ok e => metricsRun duration rest (t + (e + max 0 (1 - e))) (count + 1)
      | .err e => metricsRun duration rest (t + (e + max 0 (1 - e))) count

theorem pyInt_intCast (n : ℤ) : pyInt (n : ℚ) = n := by
  unfold pyInt
  split
  · exact Int.ceil_intCast n
  · exact Int.floor_intCast n

/-- C2: for every window rectangle with positive width and height and every
integer point inside the window bounds, converting with to_rel and back
with to_abs recovers the point to within one pixel in each coordinate
(in the exact-arithmetic embedding the round trip is in fact exact). -/
theorem coord_roundtrip_within_one (x y : ℤ) (rect : WindowRect)
    (hw : 0 < rect.width) (hh : 0 < rect.height)
    (hx1 : rect.left ≤ x) (hx2 : x ≤ rect.right)
    (hy1 : rect.top ≤ y) (hy2 : y ≤ rect.bottom) :
    |(to_abs (to_rel x y rect).1 (to_rel x y rect).2 rect).1 - x| ≤ 1 ∧
    |(to_abs (to_rel x y rect).1 (to_rel x y rect).2 rect).2 - y| ≤ 1 := by
  have hwq : ((rect.width : ℚ)) ≠ 0 := by exact_mod_cast hw.ne'
  have hhq : ((rect.height : ℚ)) ≠ 0 := by exact_mod_cast hh.ne'
  have hx : (to_abs (to_rel x y rect).1 (to_rel x y rect).2 rect).1 = x := by
    simp only [to_rel, to_abs, if_pos hw, if_pos hh]
    rw [div_mul_cancel₀ _ hwq]
    have : (rect.left : ℚ) + ((x : ℚ) - (rect.left : ℚ)) = (x : ℚ) := by ring
    rw [this, pyInt_intCast]
  have hy : (to_abs (to_rel x y rect).1 (to_rel x y rect).2 rect).2 = y := by
    simp only [to_rel, to_abs, if_pos hw, if_pos hh]
    rw [div_mul_cancel₀ _ hhq]
    have : (rect.top : ℚ) + ((y : ℚ) - (rect.top : ℚ)) = (y : ℚ) := by ring
    rw [this, pyInt_intCast]
  constructor
  · rw [hx]; simp
  · rw [hy]; simp

theorem coord_roundtrip_within_one_witness :
    (0 : ℤ) < WindowRect.width ⟨100, 200, 1100, 900⟩ ∧
    (0 : ℤ) < WindowRect.height ⟨100, 200, 1100, 900⟩ ∧
    |(to_abs (to_rel 300 400 ⟨100, 200, 1100, 900⟩).1
        (to_rel 300 400 ⟨100, 200, 1100, 900⟩).2 ⟨100, 200, 1100, 900⟩).1 - 300| ≤ 1 ∧
    |(to_abs (to_rel 300 400 ⟨100, 200, 1100, 900⟩).1
        (to_rel 300 400 ⟨100, 200, 1100, 900⟩).2 ⟨100, 200, 1100, 900⟩).2 - 400| ≤ 1 := by
  refine ⟨by decide, by decide, ?_⟩
  exact coord_roundtrip_within_one 300 400 ⟨100, 200, 1100, 900⟩
    (by decide) (by decide) (by decide) (by decide) (by decide) (by decide)

/-- C10: to_rel is total for every window rectangle, including degenerate
ones: when the width (resp. height) is zero the guard avoids the division
and the corresponding relative coordinate is 0.0, for every integer input
point. -/
theorem to_rel_total_zero (x y : ℤ) (rect : WindowRect) :
    (rect.width = 0 → (to_rel x y rect).1 = 0) ∧
    (rect.height = 0 → (to_rel x y rect).2 = 0) := by
  constructor
  · intro hw
    simp [to_rel, hw]
  · intro hh
    simp [to_rel, hh]

theorem to_rel_total_zero_witness :
    WindowRect.width ⟨5, 7, 5, 7⟩ = 0 ∧
    WindowRect.height ⟨5, 7, 5, 7⟩ = 0 ∧
    (to_rel 42 (-3) ⟨5, 7, 5, 7⟩).1 = 0 ∧ (to_rel 42 (-3) ⟨5, 7, 5, 7⟩).2 = 0 :=
  ⟨by decide, by decide,
   (to_rel_total_zero 42 (-3) ⟨5, 7, 5, 7⟩).1 (by decide),
   (to_rel_total_zero 42 (-3) ⟨5, 7, 5, 7⟩).2 (by decide)⟩

/-- C6: whenever bytes_read is positive and the elapsed time is positive,
the computed throughput in MB/s is strictly positive. -/
theorem throughput_pos (bytesRead : ℕ) (elapsed : ℚ)
    (hb : 0 < bytesRead) (he : 0 < elapsed) :
    0 < throughput_mbs bytesRead elapsed := by
  unfold throughput_mbs
  apply div_pos _ he
  apply div_pos _ (by norm_num)
  exact_mod_cast hb

theorem throughput_pos_witness :
    0 < 8388608 ∧ (0 : ℚ) < 10 ∧ 0 < throughput_mbs 8388608 10 :=
  ⟨by decide, by norm_num, throughput_pos 8388608 10 (by decide) (by norm_num)⟩

/-- C1: for every non-empty list of per-chunk elapsed times, the 95th and
99th percentile indices floor(0.95*n) and floor(0.99*n) are in range (so
the probe reports a sorted element, not the out-of-range fallback 0), the
95th-percentile value is ≥ every element at a lower sorted index, and it
is ≤ the maximum element of the list. -/
theorem percentile_sorted_bounds (l : List ℚ) (hl : l ≠ []) :
    p95_idx l.length < l.length ∧
    p99_idx l.length < l.length ∧
    (∀ (j : ℕ) (hj : j < (sortChunkTimes l).length), j < p95_idx l.length →
      (sortChunkTimes l).get ⟨j, hj⟩ ≤ chunk_time_p95 l) ∧
    (∃ m, l.maximum = some m ∧ chunk_time_p95 l ≤ m) := by
  have hn : 0 < l.length := List.length_pos.mpr hl
  have hlen : (sortChunkTimes l).length = l.length :=
    (List.perm_insertionSort _ l).length_eq
  have h95 : p95_idx l.length < l.length := by
    unfold p95_idx; omega
  have h99 : p99_idx l.length < l.length := by
    unfold p99_idx; omega
  have h95s : p95_idx l.length < (sortChunkTimes l).length := by rw [hlen]; exact h95
  have hs : List.Sorted (· ≤ ·) (sortChunkTimes l) :=
    List.sorted_insertionSort _ l
  have hval : chunk_time_p95 l = (sortChunkTimes l).get ⟨p95_idx l.length, h95s⟩ := by
    simp only [chunk_time_p95]
    rw [dif_pos h95s]
  refine ⟨h95, h99, ?_, ?_⟩
  · intro j hj hlt
    rw [hval]
    exact hs.rel_get_of_lt (a := ⟨j, hj⟩) (b := ⟨p95_idx l.length, h95s⟩) hlt
  · have hmem : chunk_time_p95 l ∈ l := by
      rw [hval]
      exact (List.perm_insertionSort _ l).subset (List.get_mem _ _ _)
    cases hmax : l.maximum with
    | bot => exact absurd (List.maximum_eq_bot.mp hmax) hl
    | coe m => exact ⟨m, rfl, List.le_maximum_of_mem hmem hmax⟩

theorem percentile_sorted_bounds_witness :
    ([2, 1, 3] : List ℚ) ≠ [] ∧
    (p95_idx (List.length ([2, 1, 3] : List ℚ)) < 3 ∧
     p99_idx (List.length ([2, 1, 3] : List ℚ)) < 3 ∧
     (∀ (j : ℕ) (hj : j < (sortChunkTimes [2, 1, 3]).length),
        j < p95_idx (List.length ([2, 1, 3] : List ℚ)) →
        (sortChunkTimes [2, 1, 3]).get ⟨j, hj⟩ ≤ chunk_time_p95 [2, 1, 3]) ∧
     (∃ m, ([2, 1, 3] : List ℚ).maximum = some m ∧ chunk_time_p95 [2, 1, 3] ≤ m)) :=
  ⟨by decide, percentile_sorted_bounds [2, 1, 3] (by decide)⟩

/-- C3: in the NAS read loop, an iteration whose read returns end-of-file
(an empty chunk) seeks the file back to offset 0 and the loop continues
with the remaining iteration budget; the empty read contributes neither to
bytes_read nor a chunk-time sample. -/
theorem nas_eof_seek_continue (fileSize chunkSize : ℕ) (s : NasState)
    (e : ℚ) (rest : List ℚ) (heof : fileSize ≤ s.pos) :
    nasStep fileSize chunkSize e s =
      { pos := 0, bytesRead := s.bytesRead, chunkTimes := s.chunkTimes } ∧
    nasLoop fileSize chunkSize (e :: rest) s =
      nasLoop fileSize chunkSize rest
        { pos := 0, bytesRead := s.bytesRead, chunkTimes := s.chunkTimes } := by
  have hread : nasRead fileSize chunkSize s.pos = 0 := by
    unfold nasRead; omega
  have hstep : nasStep fileSize chunkSize e s =
      { pos := 0, bytesRead := s.bytesRead, chunkTimes := s.chunkTimes } := by
    unfold nasStep
    rw [hread]
    rfl
  exact ⟨hstep, by rw [nasLoop, hstep]⟩

theorem nas_eof_seek_continue_witness :
    1024 ≤ (NasState.mk 1024 1024 [1] : NasState).pos ∧
    nasStep 1024 8 (2 : ℚ) ⟨1024, 1024, [1]⟩ = ⟨0, 1024, [1]⟩ ∧
    nasLoop 1024 8 ((2 : ℚ) :: [3]) ⟨1024, 1024, [1]⟩ =
      nasLoop 1024 8 [3] ⟨0, 1024, [1]⟩ :=
  ⟨by decide, nas_eof_seek_continue 1024 8 ⟨1024, 1024, [1]⟩ 2 [3] (by decide)⟩

theorem azureLoop_exn (m : String) (post : List AzureEvent) :
    ∀ (pre : List AzureEvent) (s : AzureState),
      (∀ ev ∈ pre, ev.isExn = false) →
      azureLoop (pre ++ AzureEvent.exn m :: post) s = Except.error m := by
  intro pre
  induction pre with
  | nil => intro s _; rfl
  | cons ev rest ih =>
    intro s hpre
    cases ev with
    | exn m2 =>
      have := hpre (AzureEvent.exn m2) (by simp)
      simp [AzureEvent.isExn] at this
    | resp status len e =>
      have hrest : ∀ ev ∈ rest, ev.isExn = false :=
        fun ev h => hpre ev (List.mem_cons_of_mem _ h)
      show azureLoop (AzureEvent.resp status len e ::
        (rest ++ AzureEvent.exn m :: post)) s = Except.error m
      rw [azureLoop]
      split
      · exact ih _ hrest
      · exact ih _ hrest

/-- C4 counterexample to the claim as stated: an OSError raised by the
psutil.net_io_counters() snapshot at baseline_probe.py line 287 is an
I/O exception raised during the probe operation, but it is raised before
the try block that starts at line 289, so it propagates to the caller
instead of being caught and returned as a failure record. -/
theorem azure_netio_propagates_counterexample :
    test_azure_throughput (Except.error "net counters unavailable")
      [AzureEvent.resp 206 8388608 1] 10 =
      Except.error "net counters unavailable" ∧
    test_azure_throughput (Except.error "net counters unavailable")
      [AzureEvent.resp 206 8388608 1] 10 ≠
      Except.ok (ProbeResult.failure "net counters unavailable") := by
  refine ⟨rfl, ?_⟩
  intro h
  exact Except.noConfusion h

/-- C4 (amended): every I/O or network exception raised inside the try
block of the Azure throughput probe — here, raised by an iteration of
the request loop, after any number of exception-free iterations — is
caught and returned as the failure record with success false carrying
exactly the exception message, independently of any events that would
have followed (so nothing is retried); however, an exception raised by
the initial psutil.net_io_counters() snapshot, which precedes the try
block, propagates to the caller. -/
theorem azure_exception_failure (c : NetCounters) (pre post : List AzureEvent)
    (m msnap : String) (elapsed : ℚ) (hpre : ∀ ev ∈ pre, ev.isExn = false) :
    test_azure_throughput (Except.ok c) (pre ++ AzureEvent.exn m :: post) elapsed =
      Except.ok (ProbeResult.failure m) ∧
    test_azure_throughput (Except.error msnap) (pre ++ AzureEvent.exn m :: post)
      elapsed = Except.error msnap := by
  constructor
  · unfold test_azure_throughput
    rw [azureLoop_exn m post pre ⟨0, 0, []⟩ hpre]
  · rfl

theorem azure_exception_failure_witness :
    (∀ ev ∈ [AzureEvent.resp 206 8388608 1], ev.isExn = false) ∧
    test_azure_throughput (Except.ok ⟨0, 0⟩)
      ([AzureEvent.resp 206 8388608 1] ++
        AzureEvent.exn "Connection refused" :: [AzureEvent.resp 200 4 2]) 10 =
      Except.ok (ProbeResult.failure "Connection refused") ∧
    test_azure_throughput (Except.error "net down")
      ([AzureEvent.resp 206 8388608 1] ++
        AzureEvent.exn "Connection refused" :: [AzureEvent.resp 200 4 2]) 10 =
      Except.error "net down" := by
  refine ⟨by decide, ?_, ?_⟩
  · exact (azure_exception_failure ⟨0, 0⟩ [AzureEvent.resp 206 8388608 1]
      [AzureEvent.resp 200 4 2] "Connection refused" "net down" 10 (by decide)).1
  · exact (azure_exception_failure ⟨0, 0⟩ [AzureEvent.resp 206 8388608 1]
      [AzureEvent.resp 200 4 2] "Connection refused" "net down" 10 (by decide)).2

theorem detectMaxSpeed_foldl (nics : List Nic) :
    ∀ (init : ℕ),
      init ≤ nics.foldl nicStep init ∧
      (∀ n ∈ nics, n.isUp = true → n.isLoopbackName = false →
        n.speed ≤ nics.foldl nicStep init) ∧
      (nics.foldl nicStep init = init ∨
        ∃ n ∈ nics, n.isUp = true ∧ n.isLoopbackName = false ∧
          n.speed = nics.foldl nicStep init) := by
  induction nics with
  | nil =>
    intro init
    exact ⟨le_refl _, by intro n hn; simp at hn, Or.inl rfl⟩
  | cons n rest ih =>
    intro init
    have hfold : (n :: rest).foldl nicStep init = rest.foldl nicStep (nicStep init n) := rfl
    have hmono : init ≤ nicStep init n := by
      unfold nicStep
      split
      · split
        · omega
        · exact le_refl _
      · exact le_refl _
    have hcase : nicStep init n = init ∨
        (n.isUp = true ∧ n.isLoopbackName = false ∧ nicStep init n = n.speed) := by
      unfold nicStep
      split
      · rename_i hup
        split
        · rename_i hcond
          exact Or.inr ⟨hup, hcond.1, rfl⟩
        · exact Or.inl rfl
      · exact Or.inl rfl
    obtain ⟨ih1, ih2, ih3⟩ := ih (nicStep init n)
    refine ⟨?_, ?_, ?_⟩
    · rw [hfold]; exact le_trans hmono ih1
    · intro n2 hn2 hup hloop
      rw [hfold]
      rcases List.mem_cons.mp hn2 with h | h
      · subst h
        rcases Nat.lt_or_ge init n2.speed with hlt | hge
        · have : nicStep init n2 = n2.speed := by
            unfold nicStep
            rw [if_pos hup, if_pos ⟨hloop, hlt⟩]
          rw [← this]
          exact ih1
        · exact le_trans (le_trans hge hmono) ih1
      · exact ih2 n2 h hup hloop
    · rw [hfold]
      rcases ih3 with heq | ⟨n2, hn2, hrest⟩
      · rcases hcase with hid | ⟨hup, hloop, hspeed⟩
        · exact Or.inl (heq.trans hid)
        · exact Or.inr ⟨n, List.mem_cons_self _ _, hup, hloop, hspeed.symm.trans heq.symm⟩
      · exact Or.inr ⟨n2, List.mem_cons_of_mem _ hn2, hrest⟩

/-- C9: when a positive maximum NIC link speed was detected (the greatest
advertised speed among interfaces that are up and whose name is not a
loopback name), the reported link utilization equals the observed network
rate in Mbps divided by that link speed, times 100; when no positive link
speed was detected, the reported link utilization is 0. -/
theorem link_utilization_spec (nics : List Nic) (b : ℚ) :
    (∀ m, detectLinkSpeed nics = some m →
      0 < m ∧
      (∀ n ∈ nics, n.isUp = true → n.isLoopbackName = false → n.speed ≤ m) ∧
      (∃ n ∈ nics, n.isUp = true ∧ n.isLoopbackName = false ∧ n.speed = m) ∧
      link_utilization_pct (detectLinkSpeed nics) b = b / (m : ℚ) * 100) ∧
    (detectLinkSpeed nics = none →
      link_utilization_pct (detectLinkSpeed nics) b = 0) := by
  constructor
  · intro m hm
    have hmax : detectMaxSpeed nics = m ∧ 0 < m := by
      unfold detectLinkSpeed at hm
      by_cases h : 0 < detectMaxSpeed nics
      · rw [if_pos h] at hm
        exact ⟨Option.some_injective _ hm, (Option.some_injective _ hm) ▸ h⟩
      · rw [if_neg h] at hm
        exact absurd hm (by simp)
    obtain ⟨ih1, ih2, ih3⟩ := detectMaxSpeed_foldl nics 0
    have hfold : nics.foldl nicStep 0 = m := hmax.1
    refine ⟨hmax.2, ?_, ?_, ?_⟩
    · intro n hn hup hloop
      rw [← hfold]
      exact ih2 n hn hup hloop
    · rcases ih3 with heq | ⟨n, hn, hrest⟩
      · exact absurd (hfold ▸ heq) (by omega)
      · exact ⟨n, hn, hrest.1, hrest.2.1, hrest.2.2.trans hfold⟩
    · rw [hm]
      simp only [link_utilization_pct]
      rw [if_pos hmax.2]
  · intro hm
    rw [hm]
    rfl

theorem link_utilization_spec_witness :
    detectLinkSpeed [⟨true, false, 1000⟩, ⟨true, true, 10000⟩, ⟨false, false, 40000⟩] =
      some 1000 ∧
    link_utilization_pct
      (detectLinkSpeed [⟨true, false, 1000⟩, ⟨true, true, 10000⟩, ⟨false, false, 40000⟩])
      250 = 250 / ((1000 : ℕ) : ℚ) * 100 ∧
    detectLinkSpeed [⟨true, true, 1000⟩, ⟨false, false, 40000⟩] = none ∧
    link_utilization_pct (detectLinkSpeed [⟨true, true, 1000⟩, ⟨false, false, 40000⟩])
      250 = 0 :=
  ⟨by decide,
   ((link_utilization_spec
      [⟨true, false, 1000⟩, ⟨true, true, 10000⟩, ⟨false, false, 40000⟩] 250).1
      1000 (by decide)).2.2.2,
   by decide,
   (link_utilization_spec [⟨true, true, 1000⟩, ⟨false, false, 40000⟩] 250).2
     (by decide)⟩

/-- C5: validating a configuration mapping from which a required nested
field is absent yields the validation error whose message lists the
location of that field (never a Config object); the error propagates out
of load_config and the process exits non-zero. -/
theorem load_config_missing_required (r : RawConfig) (p : String)
    (hp : p ∈ missingConfig r) :
    load_config r = Except.error (missingConfig r) ∧
    p ∈ missingConfig r ∧
    ∀ c, load_config r ≠ Except.ok c := by
  have hne : missingConfig r ≠ [] := by
    intro h
    rw [h] at hp
    simp at hp
  have h1 : load_config r = Except.error (missingConfig r) := by
    unfold load_config
    rw [if_neg hne]
  refine ⟨h1, hp, ?_⟩
  intro c hc
  rw [h1] at hc
  exact Except.noConfusion hc

/-- Concrete raw mapping that is complete except for
benchmark.nas_test_dir. -/
def rawMissingNas : RawConfig :=
  { petrel := some ⟨some "C:/Petrel/Petrel.exe", some true⟩
    paths := some ⟨some "shared.pet", some "fast.pet"⟩
    data_sources := some ⟨some "hint1", some "hint2",
      some ⟨some "acct", some "cont", none, some [], some []⟩⟩
    hotkeys := none
    fast := some ⟨some [], some "C:/fastcache"⟩
    defaults := none
    out_dir := some "bench_runs"
    benchmark := some ⟨none, some "nas01", some [], some 4, some 8388608⟩ }

theorem load_config_missing_required_witness :
    "benchmark.nas_test_dir" ∈ missingConfig rawMissingNas ∧
    load_config rawMissingNas = Except.error (missingConfig rawMissingNas) ∧
    ∀ c, load_config rawMissingNas ≠ Except.ok c := by
  refine ⟨by decide, ?_, ?_⟩
  · exact (load_config_missing_required rawMissingNas "benchmark.nas_test_dir" (by decide)).1
  · exact (load_config_missing_required rawMissingNas "benchmark.nas_test_dir" (by decide)).2.2

theorem cpuBlock_keys (e : SampleEnv) :
    (cpuBlock e).map Prod.fst = ["cpu_pct", "rss_mb", "vms_mb"] := by
  unfold cpuBlock
  split <;> rfl

theorem ioBlock_keys (e : SampleEnv) :
    (ioBlock e).map Prod.fst =
      ["read_bytes_s", "write_bytes_s", "read_cnt_s", "write_cnt_s"] := by
  unfold ioBlock ioZeros
  repeat' split
  all_goals rfl

theorem diskBlock_keys (e : SampleEnv) :
    (diskBlock e).map Prod.fst = ["sys_disk_read_mb_s", "sys_disk_write_mb_s"] := by
  unfold diskBlock diskZeros
  repeat' split
  all_goals rfl

theorem netBlock_keys (e : SampleEnv) :
    (netBlock e).map Prod.fst = ["sys_net_recv_mb_s", "sys_net_sent_mb_s"] := by
  unfold netBlock netZeros
  repeat' split
  all_goals rfl

theorem gpuBlock_keys (e : SampleEnv) :
    (gpuBlock e).map Prod.fst =
      ["gpu_util_pct", "gpu_mem_used_mb", "gpu_mem_total_mb"] := by
  unfold gpuBlock gpuZeros
  repeat' split
  all_goals rfl

/-- C7: the CSV header is exactly the fixed 20-column schema in order,
and every sample row supplies a value for each of the 20 fields in the
same order, whatever the outcome of each underlying OS or library call. -/
theorem metrics_csv_schema :
    fieldnames =
      ["ts", "pid", "cpu_pct", "rss_mb", "vms_mb",
       "read_bytes_s", "write_bytes_s", "read_cnt_s", "write_cnt_s",
       "sys_disk_read_mb_s", "sys_disk_write_mb_s",
       "sys_net_recv_mb_s", "sys_net_sent_mb_s",
       "gpu_util_pct", "gpu_mem_used_mb", "gpu_mem_total_mb",
       "fast_req_latency_ms", "fast_req_bytes", "fast_req_cache_hit",
       "open_zgy_paths"] ∧
    ∀ e : SampleEnv, (collectSample e).map Prod.fst = fieldnames := by
  refine ⟨rfl, ?_⟩
  intro e
  unfold collectSample
  simp only [List.map_append, cpuBlock_keys, ioBlock_keys, diskBlock_keys,
    netBlock_keys, gpuBlock_keys]
  rfl

theorem metricsRun_count (D : ℕ) (hD : 1 ≤ D) :
    ∀ (es : List SampleEvent) (k c : ℕ),
      k ≤ D → D - k ≤ es.length →
      (∀ ev ∈ es, ∃ e, ev = SampleEvent.ok e ∧ 0 ≤ e ∧ e ≤ 1) →
      metricsRun (D : ℚ) es (k : ℚ) c = c + (D - k) := by
  intro es
  induction es with
  | nil =>
    intro k c hk hlen _
    have hzero : D - k = 0 := by
      simp only [List.length_nil] at hlen
      omega
    rw [hzero]
    rfl
  | cons ev rest ih =>
    intro k c hk hlen hok
    obtain ⟨e, hev, he0, he1⟩ := hok ev (List.mem_cons_self _ _)
    subst hev
    by_cases hkD : k = D
    · have hcond : (D : ℚ) ≠ 0 ∧ (D : ℚ) ≤ (k : ℚ) := by
        refine ⟨by exact_mod_cast (by omega : D ≠ 0), ?_⟩
        exact_mod_cast le_of_eq hkD.symm
      rw [metricsRun, if_pos hcond]
      omega
    · have hkD2 : k < D := lt_of_le_of_ne hk hkD
      have hcond : ¬((D : ℚ) ≠ 0 ∧ (D : ℚ) ≤ (k : ℚ)) := by
        intro h
        have : D ≤ k := by exact_mod_cast h.2
        omega
      have hmax : max 0 (1 - e) = 1 - e := max_eq_right (by linarith)
      have hstep : (k : ℚ) + (e + max 0 (1 - e)) = ((k + 1 : ℕ) : ℚ) := by
        rw [hmax]
        push_cast
        ring
      rw [metricsRun, if_neg hcond]
      show metricsRun (D : ℚ) rest ((k : ℚ) + (e + max 0 (1 - e))) (c + 1) = c + (D - k)
      rw [hstep,
        ih (k + 1) (c + 1) (by omega) (by simp only [List.length_cons] at hlen; omega)
          (fun ev h => hok ev (List.mem_cons_of_mem _ h))]
      omega

/-- C8: a metrics run with an integer duration of D ≥ 1 seconds, during
which the monitored process stays alive, every sample succeeds, and each
sample takes at most the one-second period (in particular negligible
time), checks the deadline before each sample, sleeps max(0, 1 - elapsed)
after it, and writes exactly D rows, hence within one row of D. -/
theorem metrics_rows_eq_duration (D : ℕ) (es : List SampleEvent)
    (hD : 1 ≤ D) (hlen : D ≤ es.length)
    (hok : ∀ ev ∈ es, ∃ e, ev = SampleEvent.ok e ∧ 0 ≤ e ∧ e ≤ 1) :
    metricsRun (D : ℚ) es 0 0 = D := by
  have h := metricsRun_count D hD es 0 0 (by omega) (by omega) hok
  simpa using h

theorem metrics_rows_eq_duration_witness :
    1 ≤ 2 ∧ 2 ≤ [SampleEvent.ok 0, SampleEvent.ok 0].length ∧
    metricsRun ((2 : ℕ) : ℚ) [SampleEvent.ok 0, SampleEvent.ok 0] 0 0 = 2 := by
  refine ⟨by omega, by simp, ?_⟩
  apply metrics_rows_eq_duration 2 [SampleEvent.ok 0, SampleEvent.ok 0]
    (by omega) (by simp)
  intro ev h
  rw [List.mem_cons] at h
  rcases h with h | h
  · exact ⟨0, h, le_refl 0, by norm_num⟩
  · rw [List.mem_singleton] at h
    exact ⟨0, h, le_refl 0, by norm_num⟩

end FastBench
